import Mathlib

/-!
# Verification of the sloop debug key-space introspection engine

Shallow embedding of `pkg/sloop/webserver/debug.go` (zillaer/sloop):
the list-keys search engine (`listKeysHandler`), the histogram engine
(`histogramHandler`) and the single-key resolver (`viewKeyHandler`).

Modelling conventions:
* The badger store visible to an iterator (with `AllVersions` and
  `InternalAccess` set) is a list of entries in iteration order; each entry
  carries its raw key, estimated on-disk size and deleted-or-expired flag.
* An iterator restricted to a byte prefix is modelled by filtering the
  store on a string-prefix test (`strStartsWith`, the embedding of Go's
  `strings.HasPrefix` and badger's prefix restriction).
* A compiled regular expression is abstracted to its matcher
  `String → Bool`; `regexp.Compile` is abstracted to an
  `Option (String → Bool)` (`none` = the pattern does not compile).
  Go int counters are modelled by `Nat`, int64 sizes by `Int`.
-/

namespace Sloop

/-- Go `strings.HasPrefix the_string the_prefix` / badger prefix restriction. -/
def strStartsWith (s p : String) : Bool :=
  p.data.isPrefixOf s.data

/-- A store entry as exposed by the badger iterator: raw key
(`item.Key()`), estimated size (`item.EstimatedSize()`, int64) and the
`item.IsDeletedOrExpired()` flag. -/
structure Entry where
  key : String
  estimatedSize : Int
  isDeletedOrExpired : Bool
  deriving DecidableEq, Repr

/-- Result structure `keysData` of `debug.go` (lines 246-251).  During the
regex scan it also serves as the tuple of handler locals, under the mapping
`Keys = keys`, `TotalKeys = totalCount`, `TotalSize = totalSize`,
`KeysMatched = count`. -/
structure keysData where
  Keys : List String
  TotalKeys : Nat
  TotalSize : Int
  KeysMatched : Nat
  deriving DecidableEq, Repr

/-- Zero values of the handler locals `keys`, `totalCount`, `totalSize`,
`count` (lines 132-136). -/
def keysData.init : keysData :=
  { Keys := [], TotalKeys := 0, TotalSize := 0, KeysMatched := 0 }

/-- `debug.go` lines 139-143: `"all"` expands to the four tables, any other
selector is searched as itself. -/
def tablesToSearch (table : String) : List String :=
  if table = "all" then ["watch", "eventcount", "ressum", "watchactivity"]
  else [table]

/-- `debug.go` lines 148-151: every table name other than `"internal"` is
scanned under the prefix `"/" + tablename + "/"`; `"internal"` under the
empty prefix. -/
def keyPrefix (tablename : String) : String :=
  if tablename ≠ "internal" then "/" ++ tablename ++ "/" else ""

/-- The regex-mode per-table loop, `debug.go` lines 161-173.  For each
visited entry: `totalCount++`; if the key matches, append it, `count += 1`,
`totalSize += EstimatedSize()`, and `break` as soon as
`count >= maxRows`. -/
def scanTableEntries (m : String → Bool) (maxRows : Nat) :
    List Entry → keysData → keysData
  | [], s => s
  | e :: rest, s =>
    let s1 : keysData := { s with TotalKeys := s.TotalKeys + 1 }
    if m e.key then
      let s2 : keysData :=
        { Keys := s1.Keys ++ [e.key], TotalKeys := s1.TotalKeys,
          TotalSize := s1.TotalSize + e.estimatedSize,
          KeysMatched := s1.KeysMatched + 1 }
      if maxRows ≤ s2.KeysMatched then s2
      else scanTableEntries m maxRows rest s2
    else scanTableEntries m maxRows rest s1

/-- The regex-mode outer loop over the resolved table set, `debug.go`
lines 147-174: each table is scanned over the store restricted to that
table's key prefix.  Note that the `break` at line 171 only leaves the
inner loop, so later tables are still scanned. -/
def scanTables (m : String → Bool) (maxRows : Nat) (ts : List String)
    (store : List Entry) (s : keysData) : keysData :=
  ts.foldl
    (fun s t =>
      scanTableEntries m maxRows
        (store.filter (fun e => strStartsWith e.key (keyPrefix t))) s) s

/-- Outcome of a regex-mode request.  `ok` is a normal result;
`nilRegexPanic n` is the nil-pointer dereference that `debug.go` line 164
(`keyRegEx.MatchString`) commits when `regexp.Compile` failed at line 124
but the handler kept running because line 127 lacks a `return`: `n` is the
value of `totalCount` at the moment of the panic (`totalCount++` at
line 162 precedes the `MatchString` call). -/
inductive ListKeysOutcome where
  | ok (r : keysData)
  | nilRegexPanic (totalScanned : Nat)
  deriving DecidableEq, Repr

/-- The scan that actually runs after a failed `regexp.Compile`
(`keyRegEx = nil`): tables whose prefix matches no stored entry are
traversed without calling the matcher; the first visited entry of the
first non-empty table increments `totalCount` and then dereferences the
nil regex. -/
def scanTablesNilRegex : List String → List Entry → ListKeysOutcome
  | [], _ => .ok keysData.init
  | t :: ts, store =>
    match store.filter (fun e => strStartsWith e.key (keyPrefix t)) with
    | [] => scanTablesNilRegex ts store
    | _ :: _ => .nilRegexPanic 1

/-- The regex-mode path of `listKeysHandler` (`debug.go` lines 112-174,
`searchOption = "regex"`).  Input `compiled` is the result of
`regexp.Compile(keymatch)`.  The returned `Bool` records whether
`logWebError "Invalid regex"` ran (line 126).  Because line 127 has no
`return`, a compile failure still falls through into the scan, now holding
a nil `keyRegEx`. -/
def listKeysRegex (compiled : Option (String → Bool)) (table : String)
    (maxRows : Nat) (store : List Entry) : Bool × ListKeysOutcome :=
  match compiled with
  | some m =>
    (false, .ok (scanTables m maxRows (tablesToSearch table) store keysData.init))
  | none => (true, scanTablesNilRegex (tablesToSearch table) store)

/-- The four per-table `GetAllKeysForGivenPartitions` enumerators
(external collaborators from the `typed` package), abstracted to the
arguments `listKeysHandler` actually passes: `maxRows`, `lookBack`,
`keySearch` (`debug.go` lines 176-191). -/
structure PartitionEnums where
  watch : Nat → Nat → String → List String
  eventcount : Nat → Nat → String → List String
  ressum : Nat → Nat → String → List String
  watchactivity : Nat → Nat → String → List String

/-- The `switch tablename` body of the partitioned-mode loop (`debug.go`
lines 177-190): append the named table's enumerator output to the
accumulated keys; the `switch` has no `default`, so any other name leaves
the keys unchanged. -/
def partitionedTableKeys (enums : PartitionEnums)
    (maxRows lookBack : Nat) (keySearch : String)
    (acc : List String) (t : String) : List String :=
  match t with
  | "watch" => acc ++ enums.watch maxRows lookBack keySearch
  | "eventcount" => acc ++ enums.eventcount maxRows lookBack keySearch
  | "ressum" => acc ++ enums.ressum maxRows lookBack keySearch
  | "watchactivity" => acc ++ enums.watchactivity maxRows lookBack keySearch
  | _ => acc

/-- The partitioned-mode path of `listKeysHandler` (`debug.go`
lines 175-195): run the `switch` over each table of the resolved set,
then set `count`, `totalSize` and `totalCount` all to `len(keys)`
(lines 192-194). -/
def listKeysPartitioned (enums : PartitionEnums) (table : String)
    (maxRows lookBack : Nat) (keySearch : String) : keysData :=
  let keys := (tablesToSearch table).foldl
    (partitionedTableKeys enums maxRows lookBack keySearch) []
  { Keys := keys, TotalKeys := keys.length,
    TotalSize := (keys.length : Int), KeysMatched := keys.length }

/-! ## Histogram engine (`histogramHandler`, `debug.go` lines 253-357) -/

/-- Per-category statistics `sloopKeyInfo` (`debug.go` lines 225-231);
all fields int64 in Go. -/
structure sloopKeyInfo where
  MinimumSize : Int
  MaximumSize : Int
  TotalKeys : Int
  TotalSize : Int
  AverageSize : Int
  deriving DecidableEq, Repr

/-- The `histogram` result structure (`debug.go` lines 233-244).  The Go
`map[common.SloopKey]*sloopKeyInfo` is modelled as a function to
`Option sloopKeyInfo` (`none` = key absent, the zero value of a Go map
lookup); categories (`common.SloopKey`) are abstracted to strings. -/
structure histogram where
  HistogramMap : String → Option sloopKeyInfo
  TotalKeys : Nat
  TotalSloopKeys : Nat
  TotalEstimatedSize : Int
  DeletedKeys : Nat
  TotalInternalKeys : Nat
  TotalInternalKeysSize : Int
  TotalHeadKeys : Nat
  TotalMoveKeys : Nat
  TotalDiscardKeys : Nat

/-- Zero values of the accumulator locals of the histogram scan
(`debug.go` lines 272-281). -/
def histogram.init : histogram :=
  { HistogramMap := fun _ => none, TotalKeys := 0, TotalSloopKeys := 0,
    TotalEstimatedSize := 0, DeletedKeys := 0, TotalInternalKeys := 0,
    TotalInternalKeysSize := 0, TotalHeadKeys := 0, TotalMoveKeys := 0,
    TotalDiscardKeys := 0 }

/-- One iteration of the histogram loop body (`debug.go` lines 282-324).
`gsk` embeds `common.GetSloopKey` (repository code outside this excerpt),
kept abstract: it derives the category of a domain key or fails.  The
`errors.Wrapf` at lines 305-306 is modelled by prepending its format text
to the cause; the raw key stands in for its `%x` hex rendering. -/
def histStep (gsk : String → Except String String) (h : histogram)
    (e : Entry) : Except String histogram :=
  let h1 : histogram :=
    { h with TotalEstimatedSize := h.TotalEstimatedSize + e.estimatedSize,
             TotalKeys := h.TotalKeys + 1 }
  let h2 : histogram :=
    if e.isDeletedOrExpired then { h1 with DeletedKeys := h1.DeletedKeys + 1 }
    else h1
  if strStartsWith e.key "!badger" then
    let h3 : histogram :=
      { h2 with TotalInternalKeys := h2.TotalInternalKeys + 1,
                TotalInternalKeysSize := h2.TotalInternalKeysSize + e.estimatedSize }
    let h4 : histogram :=
      if strStartsWith e.key "!badger!head" then
        { h3 with TotalHeadKeys := h3.TotalHeadKeys + 1 }
      else if strStartsWith e.key "!badger!move" then
        { h3 with TotalMoveKeys := h3.TotalMoveKeys + 1 }
      else if strStartsWith e.key "!badger!discard" then
        { h3 with TotalDiscardKeys := h3.TotalDiscardKeys + 1 }
      else h3
    .ok h4
  else
    let h3 : histogram := { h2 with TotalSloopKeys := h2.TotalSloopKeys + 1 }
    match gsk e.key with
    | .error msg =>
      .error ("failed to parse information about key: " ++ e.key ++ ": " ++ msg)
    | .ok sloopKey =>
      match h3.HistogramMap sloopKey with
      | none =>
        .ok { h3 with HistogramMap := fun k =>
                if k = sloopKey then
                  some { MinimumSize := e.estimatedSize,
                         MaximumSize := e.estimatedSize, TotalKeys := 1,
                         TotalSize := e.estimatedSize,
                         AverageSize := e.estimatedSize }
                else h3.HistogramMap k }
      | some info =>
        let totalKeys := info.TotalKeys + 1
        let totalSize := info.TotalSize + e.estimatedSize
        let info2 : sloopKeyInfo :=
          { MinimumSize :=
              if e.estimatedSize < info.MinimumSize then e.estimatedSize
              else info.MinimumSize,
            MaximumSize :=
              if info.MaximumSize < e.estimatedSize then e.estimatedSize
              else info.MaximumSize,
            TotalKeys := totalKeys, TotalSize := totalSize,
            AverageSize := Int.tdiv totalSize totalKeys }
        .ok { h3 with HistogramMap := fun k =>
                if k = sloopKey then some info2 else h3.HistogramMap k }

/-- The histogram scan loop (`debug.go` lines 282-324): fold `histStep`
over the visited entries, aborting on the first categorization failure. -/
def histScan (gsk : String → Except String String) :
    List Entry → histogram → Except String histogram
  | [], h => .ok h
  | e :: rest, h =>
    match histStep gsk h e with
    | .error msg => .error msg
    | .ok h2 => histScan gsk rest h2

/-- `histogramHandler` (`debug.go` lines 253-343): an empty `prefix`
parameter skips the scan and leaves the zero-valued result; `"*"` is
rewritten to the empty byte prefix, i.e. the whole keyspace; otherwise the
iterator is restricted to the prefix. -/
def histogramRequest (gsk : String → Except String String) (pfx : String)
    (store : List Entry) : Except String histogram :=
  if 0 < pfx.length then
    let p := if pfx = "*" then "" else pfx
    histScan gsk (store.filter (fun e => strStartsWith e.key p)) histogram.init
  else .ok histogram.init

/-! ## Single-key resolver (`viewKeyHandler`, `debug.go` lines 45-110) -/

/-- The four tables' key validators and value getters (external
collaborators from the `typed` package), abstracted at their interface:
`validX k = true` embeds `ValidateKey(k) == nil`, and `getX` embeds
`Get(txn, k)` with the decoded value abstracted to a string. -/
structure TableOps where
  validWatch : String → Bool
  validRessum : String → Bool
  validEventCount : String → Bool
  validWatchActivity : String → Bool
  getWatch : String → Except String String
  getRessum : String → Except String String
  getEventCount : String → Except String String
  getWatchActivity : String → Except String String

/-- The transaction body of `viewKeyHandler` (`debug.go` lines 55-86):
probe the validators in source order (watch, resource-summary,
event-count, watch-activity); the first success selects the table whose
getter runs in the same transaction; no success yields the
`"Invalid key"` error.  The second component records which tables'
getters were invoked. -/
def viewKey (ops : TableOps) (key : String) :
    Except String String × List String :=
  if ops.validWatch key then (ops.getWatch key, ["watch"])
  else if ops.validRessum key then (ops.getRessum key, ["ressum"])
  else if ops.validEventCount key then (ops.getEventCount key, ["eventcount"])
  else if ops.validWatchActivity key then
    (ops.getWatchActivity key, ["watchactivity"])
  else (.error ("Invalid key: " ++ key), [])

/-! ## Spec-side definitions

These follow the specification's words (not the code) and are compared
with the embedded code in refinement theorems. -/

/-- Modelled from the spec, §3 "Scan Statistics": "on first observation
min=max=size, count=1; on each subsequent observation count+=1,
totalSize+=size, averageSize=totalSize/count (integer division), min/max
updated if exceeded" (with total and average also equal to size on first
observation). -/
def specStatsUpdate : Option sloopKeyInfo → Int → sloopKeyInfo
  | none, size =>
    { MinimumSize := size, MaximumSize := size, TotalKeys := 1,
      TotalSize := size, AverageSize := size }
  | some st, size =>
    let count := st.TotalKeys + 1
    let total := st.TotalSize + size
    { MinimumSize := if size < st.MinimumSize then size else st.MinimumSize,
      MaximumSize := if st.MaximumSize < size then size else st.MaximumSize,
      TotalKeys := count, TotalSize := total,
      AverageSize := Int.tdiv total count }

/-- Spec-side per-category statistics of a sequence of observed sizes:
fold the incremental rule, starting from "not yet observed". -/
def specStatsFold (acc : Option sloopKeyInfo) (sizes : List Int) :
    Option sloopKeyInfo :=
  sizes.foldl (fun a size => some (specStatsUpdate a size)) acc

/-- Whether a categorization result is a success with category `c`. -/
def catIs (r : Except String String) (c : String) : Bool :=
  match r with
  | .ok c2 => c2 = c
  | .error _ => false

/-- The sizes of the domain (non-internal) entries of the scan whose
category under `gsk` is `c`, in scan order. -/
def categorySizes (gsk : String → Except String String) (c : String)
    (entries : List Entry) : List Int :=
  (entries.filter (fun e =>
    !(strStartsWith e.key "!badger") && catIs (gsk e.key) c)).map
    Entry.estimatedSize

/-- The first domain (non-internal) entry of the scan whose categorization
fails, together with the failure message, if any. -/
def firstCatFailure (gsk : String → Except String String) :
    List Entry → Option (Entry × String)
  | [] => none
  | e :: rest =>
    if strStartsWith e.key "!badger" then firstCatFailure gsk rest
    else
      match gsk e.key with
      | .error msg => some (e, msg)
      | .ok _ => firstCatFailure gsk rest

/-- Internal keys not classified as head, move or discard (the spec's
`otherInternalKeys`; implicit in the code as the final `else` of
lines 294-300). -/
def otherInternalKeys (h : histogram) : Nat :=
  h.TotalInternalKeys - (h.TotalHeadKeys + h.TotalMoveKeys + h.TotalDiscardKeys)

/-! ## Concrete inputs used by witnesses and counterexamples -/

/-- A single domain entry under the `watch` table's prefix. -/
def watchEntry : Entry :=
  { key := "/watch/a", estimatedSize := 1, isDeletedOrExpired := false }

/-- A single domain entry under the `eventcount` table's prefix. -/
def eventcountEntry : Entry :=
  { key := "/eventcount/b", estimatedSize := 2, isDeletedOrExpired := false }

/-- A concrete categorizer: keys under `/a/` are category `"A"`,
everything else category `"B"`. -/
def gskAB : String → Except String String := fun k =>
  if strStartsWith k "/a/" then .ok "A" else .ok "B"

/-- A categorizer that rejects every key. -/
def gskFail : String → Except String String := fun _ => .error "unrecognized"

/-- The spec's histogram scenario: 3 internal-head keys, 2 internal-move
keys, 5 domain keys of category A (sizes 10,20,30,40,50), 1 domain key of
category B (size 5). -/
def scenarioEntries : List Entry :=
  [ { key := "!badger!head1", estimatedSize := 1, isDeletedOrExpired := false },
    { key := "!badger!head2", estimatedSize := 1, isDeletedOrExpired := false },
    { key := "!badger!head3", estimatedSize := 1, isDeletedOrExpired := false },
    { key := "!badger!move1", estimatedSize := 1, isDeletedOrExpired := false },
    { key := "!badger!move2", estimatedSize := 1, isDeletedOrExpired := false },
    { key := "/a/1", estimatedSize := 10, isDeletedOrExpired := false },
    { key := "/a/2", estimatedSize := 20, isDeletedOrExpired := false },
    { key := "/a/3", estimatedSize := 30, isDeletedOrExpired := false },
    { key := "/a/4", estimatedSize := 40, isDeletedOrExpired := false },
    { key := "/a/5", estimatedSize := 50, isDeletedOrExpired := false },
    { key := "/b/1", estimatedSize := 5, isDeletedOrExpired := false } ]

/-- Concrete partition enumerators in which every known table has one key
to contribute. -/
def enumsFixed : PartitionEnums :=
  { watch := fun _ _ _ => ["/watch/p1"],
    eventcount := fun _ _ _ => ["/eventcount/p1"],
    ressum := fun _ _ _ => ["/ressum/p1"],
    watchactivity := fun _ _ _ => ["/watchactivity/p1"] }

/-- Table operations in which no validator accepts any key. -/
def opsNoneValid : TableOps :=
  { validWatch := fun _ => false, validRessum := fun _ => false,
    validEventCount := fun _ => false, validWatchActivity := fun _ => false,
    getWatch := fun _ => .ok "w", getRessum := fun _ => .ok "r",
    getEventCount := fun _ => .ok "e", getWatchActivity := fun _ => .ok "a" }

/-! ## Helper lemmas -/

lemma strStartsWith_empty (s : String) : strStartsWith s "" = true := by
  simp [strStartsWith, List.isPrefixOf_iff_prefix]

lemma scanTableEntries_matched_le_total (m : String → Bool) (mr : Nat)
    (l : List Entry) (s : keysData) (h : s.KeysMatched ≤ s.TotalKeys) :
    (scanTableEntries m mr l s).KeysMatched ≤
      (scanTableEntries m mr l s).TotalKeys := by
  induction l generalizing s with
  | nil => simpa [scanTableEntries] using h
  | cons e rest ih =>
    by_cases hm : m e.key
    · simp only [scanTableEntries, hm, if_true]
      split
      · simpa using Nat.add_le_add_right h 1
      · exact ih _ (by simpa using Nat.add_le_add_right h 1)
    · simp only [scanTableEntries, hm, if_false]
      exact ih _ (by simp; omega)

lemma scanTableEntries_keys_length (m : String → Bool) (mr : Nat)
    (l : List Entry) (s : keysData) (h : s.Keys.length = s.KeysMatched) :
    (scanTableEntries m mr l s).Keys.length =
      (scanTableEntries m mr l s).KeysMatched := by
  induction l generalizing s with
  | nil => simpa [scanTableEntries] using h
  | cons e rest ih =>
    by_cases hm : m e.key
    · simp only [scanTableEntries, hm, if_true]
      split
      · simp [h]
      · exact ih _ (by simp [h])
    · simp only [scanTableEntries, hm, if_false]
      exact ih _ (by simpa using h)

lemma scanTableEntries_matched_le_cap (m : String → Bool) (mr : Nat)
    (l : List Entry) (s : keysData) :
    (scanTableEntries m mr l s).KeysMatched ≤ max mr (s.KeysMatched + 1) := by
  induction l generalizing s with
  | nil =>
    simp only [scanTableEntries]
    omega
  | cons e rest ih =>
    by_cases hm : m e.key
    · simp only [scanTableEntries, hm, if_true]
      split
      · dsimp only
        omega
      · refine le_trans (ih _) ?_
        dsimp only
        omega
    · simp only [scanTableEntries, hm, if_false]
      refine le_trans (ih _) ?_
      dsimp only
      omega

lemma scanTableEntries_mem_keys (m : String → Bool) (mr : Nat)
    (l : List Entry) (s : keysData) (k : String)
    (hk : k ∈ (scanTableEntries m mr l s).Keys) :
    k ∈ s.Keys ∨ (m k = true ∧ k ∈ l.map Entry.key) := by
  induction l generalizing s with
  | nil => simp only [scanTableEntries] at hk; exact .inl hk
  | cons e rest ih =>
    by_cases hm : m e.key
    · simp only [scanTableEntries, hm, if_true] at hk
      have step : ∀ h' : k ∈ s.Keys ++ [e.key],
          k ∈ s.Keys ∨ (m k = true ∧ k ∈ (e :: rest).map Entry.key) := by
        intro h'
        rcases List.mem_append.mp h' with h'' | h''
        · exact .inl h''
        · refine .inr ⟨?_, by simp [List.mem_singleton.mp h'']⟩
          rw [List.mem_singleton.mp h'']; exact hm
      split at hk
      · exact step hk
      · rcases ih _ hk with h' | h'
        · exact step h'
        · exact .inr ⟨h'.1, by simp [h'.2]⟩
    · simp only [scanTableEntries, hm, if_false] at hk
      rcases ih _ hk with h' | h'
      · exact .inl h'
      · exact .inr ⟨h'.1, by simp [h'.2]⟩

lemma scanTables_matched_le_total (m : String → Bool) (mr : Nat)
    (ts : List String) (store : List Entry) (s : keysData)
    (h : s.KeysMatched ≤ s.TotalKeys) :
    (scanTables m mr ts store s).KeysMatched ≤
      (scanTables m mr ts store s).TotalKeys := by
  induction ts generalizing s with
  | nil => simpa [scanTables] using h
  | cons t ts ih =>
    simp only [scanTables, List.foldl_cons] at ih ⊢
    exact ih _ (scanTableEntries_matched_le_total m mr _ s h)

lemma scanTables_keys_length (m : String → Bool) (mr : Nat)
    (ts : List String) (store : List Entry) (s : keysData)
    (h : s.Keys.length = s.KeysMatched) :
    (scanTables m mr ts store s).Keys.length =
      (scanTables m mr ts store s).KeysMatched := by
  induction ts generalizing s with
  | nil => simpa [scanTables] using h
  | cons t ts ih =>
    simp only [scanTables, List.foldl_cons] at ih ⊢
    exact ih _ (scanTableEntries_keys_length m mr _ s h)

lemma scanTables_matched_le_cap (m : String → Bool) (mr : Nat)
    (ts : List String) (store : List Entry) (s : keysData) :
    (scanTables m mr ts store s).KeysMatched ≤ max mr s.KeysMatched + ts.length := by
  induction ts generalizing s with
  | nil =>
    simp only [scanTables, List.foldl_nil, List.length_nil]
    omega
  | cons t ts ih =>
    simp only [scanTables, List.foldl_cons] at ih ⊢
    have h1 := scanTableEntries_matched_le_cap m mr
      (store.filter (fun e => strStartsWith e.key (keyPrefix t))) s
    have h2 := ih (scanTableEntries m mr
      (store.filter (fun e => strStartsWith e.key (keyPrefix t))) s)
    simp only [List.length_cons]
    omega

lemma partitionedTableKeys_unknown (enums : PartitionEnums)
    (maxRows lookBack : Nat) (keySearch : String) (acc : List String)
    (t : String) (h1 : t ≠ "watch") (h2 : t ≠ "eventcount")
    (h3 : t ≠ "ressum") (h4 : t ≠ "watchactivity") :
    partitionedTableKeys enums maxRows lookBack keySearch acc t = acc := by
  unfold partitionedTableKeys
  split
  · exact absurd rfl h1
  · exact absurd rfl h2
  · exact absurd rfl h3
  · exact absurd rfl h4
  · rfl

lemma histStep_internal (gsk : String → Except String String) (h : histogram)
    (e : Entry) (hb : strStartsWith e.key "!badger" = true) :
    ∃ h', histStep gsk h e = .ok h' ∧ h'.HistogramMap = h.HistogramMap ∧
      h'.TotalKeys = h.TotalKeys + 1 ∧
      h'.TotalInternalKeys = h.TotalInternalKeys + 1 ∧
      h'.TotalSloopKeys = h.TotalSloopKeys ∧
      h'.TotalHeadKeys + h'.TotalMoveKeys + h'.TotalDiscardKeys ≤
        h.TotalHeadKeys + h.TotalMoveKeys + h.TotalDiscardKeys + 1 := by
  unfold histStep
  simp only [hb, ite_true]
  refine ⟨_, rfl, ?_, ?_, ?_, ?_, ?_⟩ <;>
    by_cases hd : e.isDeletedOrExpired <;>
      simp only [hd, ite_true, ite_false] <;>
        (repeat' split) <;>
          first
          | rfl
          | (dsimp only; omega)

lemma histStep_domain_ok (gsk : String → Except String String) (h : histogram)
    (e : Entry) (sk : String)
    (hb : strStartsWith e.key "!badger" = false) (hg : gsk e.key = .ok sk) :
    ∃ h', histStep gsk h e = .ok h' ∧
      h'.TotalKeys = h.TotalKeys + 1 ∧
      h'.TotalInternalKeys = h.TotalInternalKeys ∧
      h'.TotalSloopKeys = h.TotalSloopKeys + 1 ∧
      h'.TotalHeadKeys = h.TotalHeadKeys ∧
      h'.TotalMoveKeys = h.TotalMoveKeys ∧
      h'.TotalDiscardKeys = h.TotalDiscardKeys ∧
      (∀ c, h'.HistogramMap c =
        if c = sk then some (specStatsUpdate (h.HistogramMap sk) e.estimatedSize)
        else h.HistogramMap c) := by
  unfold histStep
  by_cases hd : e.isDeletedOrExpired <;>
    simp only [hb, hd, Bool.false_eq_true, ite_true, ite_false, hg] <;>
    cases hm : h.HistogramMap sk <;>
      simp only [hm] <;>
      exact ⟨_, rfl, rfl, rfl, rfl, rfl, rfl, rfl, fun c => by
        by_cases hc : c = sk <;> simp [hc, hm, specStatsUpdate]⟩

lemma histStep_domain_error (gsk : String → Except String String) (h : histogram)
    (e : Entry) (msg : String)
    (hb : strStartsWith e.key "!badger" = false) (hg : gsk e.key = .error msg) :
    histStep gsk h e = .error
      ("failed to parse information about key: " ++ e.key ++ ": " ++ msg) := by
  unfold histStep
  simp [hb, hg]

lemma histScan_totals (gsk : String → Except String String)
    (entries : List Entry) (h0 h : histogram)
    (hs : histScan gsk entries h0 = .ok h)
    (inv1 : h0.TotalKeys = h0.TotalInternalKeys + h0.TotalSloopKeys)
    (inv2 : h0.TotalHeadKeys + h0.TotalMoveKeys + h0.TotalDiscardKeys ≤
      h0.TotalInternalKeys) :
    h.TotalKeys = h.TotalInternalKeys + h.TotalSloopKeys ∧
      h.TotalHeadKeys + h.TotalMoveKeys + h.TotalDiscardKeys ≤
        h.TotalInternalKeys := by
  induction entries generalizing h0 with
  | nil =>
    simp only [histScan, Except.ok.injEq] at hs
    exact hs ▸ ⟨inv1, inv2⟩
  | cons e rest ih =>
    cases hb : strStartsWith e.key "!badger" with
    | true =>
      obtain ⟨h1, hstep, _, k1, k2, k3, k4⟩ := histStep_internal gsk h0 e hb
      simp only [histScan, hstep] at hs
      exact ih h1 hs (by omega) (by omega)
    | false =>
      cases hg : gsk e.key with
      | error msg =>
        rw [histScan, histStep_domain_error gsk h0 e msg hb hg] at hs
        cases hs
      | ok sk =>
        obtain ⟨h1, hstep, k1, k2, k3, k4, k5, k6, _⟩ :=
          histStep_domain_ok gsk h0 e sk hb hg
        simp only [histScan, hstep] at hs
        exact ih h1 hs (by omega) (by omega)

lemma histScan_map (gsk : String → Except String String)
    (entries : List Entry) (h0 h : histogram)
    (hs : histScan gsk entries h0 = .ok h) (c : String) :
    h.HistogramMap c = specStatsFold (h0.HistogramMap c)
      (categorySizes gsk c entries) := by
  induction entries generalizing h0 with
  | nil =>
    simp only [histScan, Except.ok.injEq] at hs
    subst hs
    simp [categorySizes, specStatsFold]
  | cons e rest ih =>
    cases hb : strStartsWith e.key "!badger" with
    | true =>
      obtain ⟨h1, hstep, hmap, _⟩ := histStep_internal gsk h0 e hb
      simp only [histScan, hstep] at hs
      rw [ih h1 hs, hmap]
      congr 1
      simp [categorySizes, hb]
    | false =>
      cases hg : gsk e.key with
      | error msg =>
        rw [histScan, histStep_domain_error gsk h0 e msg hb hg] at hs
        cases hs
      | ok sk =>
        obtain ⟨h1, hstep, _, _, _, _, _, _, hmap⟩ :=
          histStep_domain_ok gsk h0 e sk hb hg
        simp only [histScan, hstep] at hs
        rw [ih h1 hs]
        by_cases hc : c = sk
        · subst hc
          rw [hmap c, if_pos rfl]
          have hsizes : categorySizes gsk c (e :: rest) =
              e.estimatedSize :: categorySizes gsk c rest := by
            simp [categorySizes, hb, hg, catIs]
          rw [hsizes]
          rfl
        · rw [hmap c, if_neg hc]
          congr 1
          unfold categorySizes
          rw [List.filter_cons_of_neg]
          simp only [hb, hg, catIs, Bool.not_false, Bool.true_and,
            Bool.not_eq_true, decide_eq_false_iff_not]
          exact fun h' => hc h'.symm

lemma histScan_firstCatFailure (gsk : String → Except String String)
    (entries : List Entry) (h0 : histogram) (e : Entry) (msg : String)
    (hf : firstCatFailure gsk entries = some (e, msg)) :
    histScan gsk entries h0 = .error
      ("failed to parse information about key: " ++ e.key ++ ": " ++ msg) := by
  induction entries generalizing h0 with
  | nil => simp [firstCatFailure] at hf
  | cons e2 rest ih =>
    cases hb : strStartsWith e2.key "!badger" with
    | true =>
      obtain ⟨h1, hstep, _⟩ := histStep_internal gsk h0 e2 hb
      simp only [firstCatFailure, hb, ite_true] at hf
      simp only [histScan, hstep]
      exact ih h1 hf
    | false =>
      cases hg : gsk e2.key with
      | error m2 =>
        simp only [firstCatFailure, hb, Bool.false_eq_true, ite_false, hg,
          Option.some.injEq, Prod.mk.injEq] at hf
        rw [histScan, histStep_domain_error gsk h0 e2 m2 hb hg, hf.1, hf.2]
      | ok sk =>
        obtain ⟨h1, hstep, _⟩ := histStep_domain_ok gsk h0 e2 sk hb hg
        simp only [firstCatFailure, hb, Bool.false_eq_true, ite_false, hg] at hf
        simp only [histScan, hstep]
        exact ih h1 hf

/-! ## Claim theorems -/

/-- Claim C1 (code bug).  The claim says an uncompilable pattern is
rejected before any scanning, with zero keys scanned and no crash.  In the
code, `logWebError` at `debug.go` line 126 is not followed by `return`
(every other error path in the file has one), so the handler falls through
into the scan holding a nil `keyRegEx`: on a store with one key under the
`watch` prefix, the error is logged (`true`), one key is counted as
scanned, and `keyRegEx.MatchString` then dereferences nil. -/
theorem invalidPattern_still_scans :
    listKeysRegex none "watch" 1000 [watchEntry]
      = (true, .nilRegexPanic 1) := rfl

/-- Claim C2, counterexample.  With row cap 0 the claim demands an empty
result and `matchedCount ≤ 0`; the code appends a matching key before the
cap check (`debug.go` lines 165-168), so the result holds one key and
`matchedCount = 1`. -/
theorem capZero_result_not_empty :
    listKeysRegex (some fun _ => true) "watch" 0 [watchEntry]
      = (false, .ok { Keys := ["/watch/a"], TotalKeys := 1, TotalSize := 1,
                      KeysMatched := 1 })
    ∧ ¬ ((1 : Nat) ≤ 0) :=
  ⟨rfl, by omega⟩

/-- Claim C2 as amended.  In regex mode the run never errors,
`matchedCount ≤ totalScanned` always, the returned key list has exactly
`matchedCount` entries, but the cap can be overshot by up to one match per
table searched: `matchedCount ≤ N + (number of tables)` (the append at
`debug.go` line 165 precedes the cap check, and the `break` at line 171
only leaves the current table's loop). -/
theorem regex_counts_bounds (m : String → Bool) (table : String)
    (maxRows : Nat) (store : List Entry) :
    ∃ r, listKeysRegex (some m) table maxRows store = (false, .ok r) ∧
      r.KeysMatched ≤ r.TotalKeys ∧
      r.KeysMatched ≤ maxRows + (tablesToSearch table).length ∧
      r.Keys.length = r.KeysMatched := by
  refine ⟨_, rfl, ?_, ?_, ?_⟩
  · exact scanTables_matched_le_total m maxRows _ store keysData.init (le_refl 0)
  · refine le_trans
      (scanTables_matched_le_cap m maxRows (tablesToSearch table) store keysData.init) ?_
    dsimp only [keysData.init]
    omega
  · exact scanTables_keys_length m maxRows _ store keysData.init rfl

/-- Claim C3.  When the histogram scan completes, the global counters
partition: `totalKeys = internalKeys + domainKeys` and
`internalKeys = headKeys + moveKeys + discardKeys + otherInternalKeys`
(each entry is counted internal or domain, never both, and each internal
entry in at most one sub-category). -/
theorem histogram_totals (gsk : String → Except String String)
    (entries : List Entry) (h : histogram)
    (hs : histScan gsk entries histogram.init = .ok h) :
    h.TotalKeys = h.TotalInternalKeys + h.TotalSloopKeys ∧
    h.TotalInternalKeys = h.TotalHeadKeys + h.TotalMoveKeys +
      h.TotalDiscardKeys + otherInternalKeys h := by
  obtain ⟨h1, h2⟩ :=
    histScan_totals gsk entries histogram.init h hs rfl (le_refl 0)
  exact ⟨h1, by unfold otherInternalKeys; omega⟩

/-- Witness for C3: the spec's scenario store satisfies the hypothesis and
the partition equations. -/
theorem histogram_totals_witness :
    ∃ h, histScan gskAB scenarioEntries histogram.init = Except.ok h ∧
      (h.TotalKeys = h.TotalInternalKeys + h.TotalSloopKeys ∧
       h.TotalInternalKeys = h.TotalHeadKeys + h.TotalMoveKeys +
         h.TotalDiscardKeys + otherInternalKeys h) :=
  ⟨_, rfl, histogram_totals gskAB scenarioEntries _ rfl⟩

/-- Claim C4.  The per-category statistics the completed histogram reports
for any category equal the spec's incremental min/max/count/total/average
rule folded over the sizes of that category's domain entries in scan
order. -/
theorem histogram_category_stats (gsk : String → Except String String)
    (entries : List Entry) (h : histogram)
    (hs : histScan gsk entries histogram.init = .ok h) (c : String) :
    h.HistogramMap c = specStatsFold none (categorySizes gsk c entries) :=
  histScan_map gsk entries histogram.init h hs c

/-- Witness for C4: on the spec's scenario store, category A
(sizes 10,20,30,40,50) reports min 10, max 50, count 5, total 150,
average 30. -/
theorem histogram_category_stats_witness :
    ∃ h, histScan gskAB scenarioEntries histogram.init = Except.ok h ∧
      h.HistogramMap "A" = some { MinimumSize := 10, MaximumSize := 50,
                                  TotalKeys := 5, TotalSize := 150,
                                  AverageSize := 30 } :=
  ⟨_, rfl, (histogram_category_stats gskAB scenarioEntries _ rfl "A").trans
    (by decide)⟩

/-- Claim C5.  If categorization fails for some domain entry, the whole
histogram scan aborts with the wrapped error naming the first offending
raw key, whatever the accumulated state; no histogram value is returned. -/
theorem histogram_cat_failure_aborts (gsk : String → Except String String)
    (entries : List Entry) (h0 : histogram) (e : Entry) (msg : String)
    (hf : firstCatFailure gsk entries = some (e, msg)) :
    histScan gsk entries h0 = .error
      ("failed to parse information about key: " ++ e.key ++ ": " ++ msg) :=
  histScan_firstCatFailure gsk entries h0 e msg hf

/-- Witness for C5: a store whose only domain key is rejected by the
categorizer aborts the scan with the wrapped error. -/
theorem histogram_cat_failure_aborts_witness :
    histScan gskFail [watchEntry] histogram.init = .error
      ("failed to parse information about key: " ++ "/watch/a" ++ ": "
        ++ "unrecognized") :=
  histogram_cat_failure_aborts gskFail [watchEntry] histogram.init
    watchEntry "unrecognized" rfl

/-- Claim C6, counterexample.  The claim says regex mode with selector
`"internal"` matches only keys with the reserved `"!badger"` prefix.  The
code only sets an empty scan prefix (`debug.go` lines 148-151) and never
tests for the sentinel, so the domain key `/watch/a` is matched and
returned. -/
theorem internal_mode_matches_domain_key :
    listKeysRegex (some fun _ => true) "internal" 1000 [watchEntry]
      = (false, .ok { Keys := ["/watch/a"], TotalKeys := 1, TotalSize := 1,
                      KeysMatched := 1 })
    ∧ strStartsWith "/watch/a" "!badger" = false :=
  ⟨rfl, rfl⟩

/-- Claim C6 as amended.  With selector `"internal"` the scan uses no key
prefix and every stored key — internal or domain — is tested against the
pattern: the result is exactly the capped scan of the whole store, and any
returned key matched the pattern and came from the store, with no
restriction to the `"!badger"` sentinel. -/
theorem internal_mode_scans_all_keys (m : String → Bool) (maxRows : Nat)
    (store : List Entry) (r : keysData)
    (hr : listKeysRegex (some m) "internal" maxRows store = (false, .ok r)) :
    r = scanTableEntries m maxRows store keysData.init ∧
    ∀ k ∈ r.Keys, m k = true ∧ k ∈ store.map Entry.key := by
  have heq : listKeysRegex (some m) "internal" maxRows store
      = (false, .ok (scanTableEntries m maxRows store keysData.init)) := by
    show (false, ListKeysOutcome.ok
      (scanTables m maxRows ["internal"] store keysData.init)) = _
    have hf : store.filter
        (fun e => strStartsWith e.key (keyPrefix "internal")) = store :=
      List.filter_eq_self.mpr (fun a _ => strStartsWith_empty a.key)
    simp [scanTables, hf]
  rw [heq] at hr
  replace hr := congrArg Prod.snd hr
  simp only [ListKeysOutcome.ok.injEq] at hr
  subst hr
  refine ⟨rfl, fun k hk => ?_⟩
  rcases scanTableEntries_mem_keys m maxRows store keysData.init k hk with h | h
  · simp [keysData.init] at h
  · exact h

/-- Witness for C6's amended theorem: on a store holding only the domain
key `/watch/a`, the key returned in internal mode matched the pattern and
is a store key. -/
theorem internal_mode_scans_all_keys_witness :
    (fun (_ : String) => true) "/watch/a" = true ∧
      "/watch/a" ∈ [watchEntry].map Entry.key :=
  (internal_mode_scans_all_keys (fun _ => true) 1000 [watchEntry] _ rfl).2
    "/watch/a" (by decide)

/-- Claim C7, counterexample.  The claim says an unknown table selector
fails with an `UnknownTable` error; the code never validates the selector
(`debug.go` lines 139-143 plus the `switch` without `default`), so the
request succeeds with an empty result. -/
theorem unknown_table_ok_empty :
    listKeysRegex (some fun _ => true) "sometable" 1000 [watchEntry]
      = (false, .ok keysData.init) := rfl

/-- Claim C7 as amended.  A selector that is none of the four table
names, `"all"` or `"internal"` is never rejected — no `UnknownTable`
error exists: regex mode scans it as an ordinary table under the prefix
`"/" ++ name ++ "/"` and returns a successful result, and partitioned
mode contributes no keys for it (the `switch` has no case for the name),
returning the empty successful result. -/
theorem unknown_table_scans_prefix (m : String → Bool)
    (enums : PartitionEnums) (maxRows lookBack : Nat) (keySearch : String)
    (store : List Entry) (t : String)
    (h1 : t ≠ "watch") (h2 : t ≠ "eventcount") (h3 : t ≠ "ressum")
    (h4 : t ≠ "watchactivity") (hall : t ≠ "all") (hint : t ≠ "internal") :
    listKeysRegex (some m) t maxRows store
      = (false, .ok (scanTableEntries m maxRows
          (store.filter (fun e => strStartsWith e.key ("/" ++ t ++ "/")))
          keysData.init)) ∧
    listKeysPartitioned enums t maxRows lookBack keySearch = keysData.init := by
  constructor
  · unfold listKeysRegex tablesToSearch
    simp [hall, scanTables, keyPrefix, hint]
  · unfold listKeysPartitioned tablesToSearch
    simp only [if_neg hall, List.foldl_cons, List.foldl_nil,
      partitionedTableKeys_unknown enums maxRows lookBack keySearch [] t
        h1 h2 h3 h4]
    rfl

/-- Witness for C7's amended theorem at the unknown selector
`"sometable"`, with enumerators that would contribute keys for the known
tables. -/
theorem unknown_table_scans_prefix_witness :
    listKeysRegex (some fun _ => true) "sometable" 1000 [watchEntry]
      = (false, .ok (scanTableEntries (fun _ => true) 1000
          ([watchEntry].filter
            (fun e => strStartsWith e.key ("/" ++ "sometable" ++ "/")))
          keysData.init)) ∧
    listKeysPartitioned enumsFixed "sometable" 1000 336 "" = keysData.init :=
  unknown_table_scans_prefix (fun _ => true) enumsFixed 1000 336 ""
    [watchEntry] "sometable" (by decide) (by decide) (by decide) (by decide)
    (by decide) (by decide)

/-- Claim C8.  A histogram request with an empty prefix filter performs no
scan and returns the empty (zero-valued) result without error; the
wildcard `"*"` is rewritten to the empty byte prefix, so the whole store
is scanned. -/
theorem histogram_prefix_gate (gsk : String → Except String String)
    (store : List Entry) :
    histogramRequest gsk "" store = .ok histogram.init ∧
    histogramRequest gsk "*" store = histScan gsk store histogram.init := by
  constructor
  · rfl
  · have hfilter : store.filter (fun e => strStartsWith e.key "") = store :=
      List.filter_eq_self.mpr (fun a _ => strStartsWith_empty a.key)
    show histScan gsk (store.filter (fun e => strStartsWith e.key ""))
      histogram.init = _
    rw [hfilter]

/-- Claim C9.  The single-key resolver probes the validators in the fixed
source order watch, resource-summary, event-count, watch-activity; the
first success determines whose getter runs (and only that getter); if none
succeeds the result is the invalid-key error and no getter is invoked. -/
theorem viewKey_probe_order (ops : TableOps) (k : String) :
    (ops.validWatch k = true →
      viewKey ops k = (ops.getWatch k, ["watch"])) ∧
    (ops.validWatch k = false → ops.validRessum k = true →
      viewKey ops k = (ops.getRessum k, ["ressum"])) ∧
    (ops.validWatch k = false → ops.validRessum k = false →
      ops.validEventCount k = true →
      viewKey ops k = (ops.getEventCount k, ["eventcount"])) ∧
    (ops.validWatch k = false → ops.validRessum k = false →
      ops.validEventCount k = false → ops.validWatchActivity k = true →
      viewKey ops k = (ops.getWatchActivity k, ["watchactivity"])) ∧
    (ops.validWatch k = false → ops.validRessum k = false →
      ops.validEventCount k = false → ops.validWatchActivity k = false →
      viewKey ops k = (.error ("Invalid key: " ++ k), [])) := by
  refine ⟨?_, ?_, ?_, ?_, ?_⟩ <;> intros <;> simp [viewKey, *]

/-- Witness for C9: with no validator accepting, the lookup fails with the
invalid-key error and the fetch log is empty. -/
theorem viewKey_probe_order_witness :
    viewKey opsNoneValid "nokey" = (.error ("Invalid key: " ++ "nokey"), []) :=
  (viewKey_probe_order opsNoneValid "nokey").2.2.2.2 rfl rfl rfl rfl

/-- Claim C10.  In partitioned mode the reported total matched size is set
to the number of returned keys (not a byte-size sum), and the scanned and
matched counts equal that same key count (`debug.go` lines 192-194). -/
theorem partitioned_counts (enums : PartitionEnums) (table : String)
    (maxRows lookBack : Nat) (keySearch : String) :
    (listKeysPartitioned enums table maxRows lookBack keySearch).TotalSize =
      ((listKeysPartitioned enums table maxRows lookBack
        keySearch).Keys.length : Int) ∧
    (listKeysPartitioned enums table maxRows lookBack keySearch).TotalKeys =
      (listKeysPartitioned enums table maxRows lookBack keySearch).Keys.length ∧
    (listKeysPartitioned enums table maxRows lookBack keySearch).KeysMatched =
      (listKeysPartitioned enums table maxRows lookBack keySearch).Keys.length :=
  ⟨rfl, rfl, rfl⟩

end Sloop
